import Mathlib

/-!
Verification of the browser-automation runner in this repository.

Two source variants are embedded:
* the bridge form (`src/app/browser_automation.py`, `src/app/browser_tool.py`):
  `BrowserAction`, `ActionResult`, `BrowserAutomation.run`, `load_config`,
  `run_from_config`;
* the standalone runner (`src/playwright_autobot.py`): `Step`, `BotConfig`,
  `AutoBot.run`, `main`, `load_json_or_jsonc`.

Machine-level browser operations (Playwright page calls) are modelled as
oracles: functions supplied as parameters that either succeed, updating an
abstract page state, or fail with an exception message, exactly the two
behaviours the Python code distinguishes with try/except.
-/

namespace BrowserBot

/-- A parsed JSON value, the result of Python's `json.loads`.  Objects are
association lists; Python dict construction keeps the last duplicate key,
which `jlookup` reproduces.  Numbers are modelled as integers (no claim
touches fractional values). -/
inductive JValue where
  | null : JValue
  | bool (b : Bool) : JValue
  | num (n : Int) : JValue
  | str (s : String) : JValue
  | arr (xs : List JValue) : JValue
  | obj (kvs : List (String × JValue)) : JValue
  deriving Repr, BEq

/-- Python `dict` lookup on a JSON object: the last binding of a duplicated
key wins, a missing key gives `none`. -/
def jlookup (kvs : List (String × JValue)) (k : String) : Option JValue :=
  kvs.foldl (fun acc p => if p.1 = k then some p.2 else acc) none

/-- Python `mapping.get(k)`: a JSON `null` loads as Python `None`, which every
`is None` check in the loaders treats exactly like an absent key. -/
def jget (kvs : List (String × JValue)) (k : String) : Option JValue :=
  match jlookup kvs k with
  | some JValue.null => none
  | v => v

/-- The five recognized bridge action names, from `SUPPORTED_ACTIONS` in
`src/app/browser_automation.py`. -/
def supportedActions : List String :=
  ["goto", "click", "fill", "wait_for_selector", "screenshot"]

/-- `BrowserAction` from `src/app/browser_automation.py`.  The `name` is kept
as a string (the Python `Literal` type is advisory; `_execute_action`
dispatches on the string at run time).  `options` is a JSON-object payload. -/
structure BrowserAction where
  name : String
  selector : Option String := none
  text : Option String := none
  url : Option String := none
  path : Option String := none
  options : Option (List (String × JValue)) := none
  deriving Repr, BEq

/-- `ActionResult` from `src/app/browser_automation.py`. -/
structure ActionResult where
  name : String
  success : Bool
  detail : Option String := none
  deriving Repr, BEq, DecidableEq

/-- `BrowserAutomationResult.successful`: all actions succeeded. -/
def successful (results : List ActionResult) : Bool :=
  results.all fun r => r.success

/-- `optional_str` inside `BrowserAction.from_dict`: absent or `null` gives
`None`, a string is kept, anything else is a `ValueError`.  (The Python
message quotes the key name; quoting is dropped here.) -/
def optionalStr (kvs : List (String × JValue)) (k : String) :
    Except String (Option String) :=
  match jget kvs k with
  | none => Except.ok none
  | some (JValue.str s) => Except.ok (some s)
  | some _ => Except.error (k ++ " must be a string when provided")

/-- The `options` validation inside `BrowserAction.from_dict`: absent or
`null` gives `None`, a mapping is copied, anything else is a `ValueError`. -/
def optionsField (kvs : List (String × JValue)) :
    Except String (Option (List (String × JValue))) :=
  match jget kvs "options" with
  | none => Except.ok none
  | some (JValue.obj o) => Except.ok (some o)
  | some _ => Except.error "options must be a mapping when provided"

/-- `BrowserAction.from_dict` (`src/app/browser_automation.py`): requires a
`name` among the five supported actions (`data["name"]` raises on absence;
any non-member value, string or not, is rejected), validates `options` as a
mapping, then the four optional string fields in constructor-argument
order.  Each raise propagates immediately, as in Python. -/
def fromDict (kvs : List (String × JValue)) : Except String BrowserAction :=
  match jlookup kvs "name" with
  | none => Except.error "Action definition requires a name"
  | some nameVal =>
      match nameVal with
      | JValue.str name =>
          if name ∈ supportedActions then
            match optionsField kvs with
            | Except.error e => Except.error e
            | Except.ok options =>
                match optionalStr kvs "selector" with
                | Except.error e => Except.error e
                | Except.ok selector =>
                    match optionalStr kvs "text" with
                    | Except.error e => Except.error e
                    | Except.ok text =>
                        match optionalStr kvs "url" with
                        | Except.error e => Except.error e
                        | Except.ok url =>
                            match optionalStr kvs "path" with
                            | Except.error e => Except.error e
                            | Except.ok path =>
                                Except.ok { name, selector, text, url, path, options }
          else Except.error ("Unsupported action name: " ++ name)
      | _ => Except.error "Unsupported action name: non-string"

/-- `AutomationConfig` from `src/app/browser_tool.py`. -/
structure AutomationConfig where
  actions : List BrowserAction
  base_url : Option String := none
  settings : List (String × JValue) := []
  deriving Repr, BEq

/-- The per-element body of the `for index, raw_action in enumerate(...)`
loop of `load_config`: each element must be a mapping and parse via
`from_dict`. -/
def parseActions (i : Nat) : List JValue → Except String (List BrowserAction)
  | [] => Except.ok []
  | v :: rest =>
      match v with
      | JValue.obj kvs =>
          match fromDict kvs with
          | Except.error e => Except.error e
          | Except.ok a =>
              match parseActions (i + 1) rest with
              | Except.error e => Except.error e
              | Except.ok tail => Except.ok (a :: tail)
      | _ => Except.error ("Expected a mapping for action[" ++ toString i ++ "]")

/-- The `settings` validation of `load_config`: absent or `null` gives an
empty dict, a mapping is copied, anything else is a `ValueError`. -/
def settingsField (kvs : List (String × JValue)) :
    Except String (List (String × JValue)) :=
  match jget kvs "settings" with
  | none => Except.ok []
  | some (JValue.obj o) => Except.ok o
  | some _ => Except.error "Expected a mapping for settings section"

/-- `load_config` from `src/app/browser_tool.py`, applied to an already
parsed JSON document: root must be a mapping; `base_url` optional string
(same check as `optional_str`, with its own message); `settings` optional
mapping; `actions` required and must be a sequence (from `json.loads` the
only sequence value is an array, and strings are explicitly rejected by
`_ensure_sequence`); then each action parses. -/
def loadConfig (raw : JValue) : Except String AutomationConfig :=
  match raw with
  | JValue.obj mapping =>
      match optionalStr mapping "base_url" with
      | Except.error _ => Except.error "base_url must be a string when provided"
      | Except.ok base_url =>
          match settingsField mapping with
          | Except.error e => Except.error e
          | Except.ok settings =>
              match jget mapping "actions" with
              | none => Except.error "Config must define an actions array"
              | some (JValue.arr xs) =>
                  match parseActions 0 xs with
                  | Except.error e => Except.error e
                  | Except.ok actions => Except.ok { actions, base_url, settings }
              | some _ => Except.error "Expected a sequence for actions"
  | _ => Except.error "Expected a mapping for config root"

/-! ## URL resolution (`BrowserAutomation._resolve_url`) -/

/-- Python string truthiness for `Optional[str]` fields: present and
non-empty. -/
def truthy : Option String → Bool
  | some s => s ≠ ""
  | none => false

/-- Python `s.rstrip("/")`. -/
def rstripSlash (s : String) : String :=
  String.mk (((s.data.reverse).dropWhile fun c => c = '/').reverse)

/-- Python `s.lstrip("/")`. -/
def lstripSlash (s : String) : String :=
  String.mk (s.data.dropWhile fun c => c = '/')

/-- Modelled from the spec: Python's `urllib.parse.urljoin` (standard
library, not part of this repository), restricted to the shapes
`_resolve_url` produces — a base URL with a scheme whose path ends in `/`
and a relative reference with no scheme, authority or leading slash.  For
such inputs `urljoin` replaces everything after the base's last `/` with
the reference. -/
def urljoinRel (base rel : String) : String :=
  String.mk (((base.data.reverse).dropWhile fun c => c ≠ '/').reverse) ++ rel

/-- `BrowserAutomation._resolve_url`: a truthy `url` is used verbatim; else a
truthy `path` with a truthy base URL joins them with separators normalized;
else a truthy base URL with no truthy path is used as is; else an error. -/
def resolveUrl (a : BrowserAction) (base : Option String) : Except String String :=
  if truthy a.url then Except.ok (a.url.getD "")
  else if truthy a.path && truthy base then
    Except.ok (urljoinRel (rstripSlash (base.getD "") ++ "/") (lstripSlash (a.path.getD "")))
  else if truthy base && !truthy a.path then Except.ok (base.getD "")
  else Except.error "No URL provided for goto action"

/-! ## Step executor (`BrowserAutomation._execute_action` and handlers) -/

/-- Oracle for the Playwright page object used by the bridge handlers: each
operation consumes an abstract page state and either succeeds with an
updated state or raises an exception message.  `options` is the keyword
dictionary the handler forwards. -/
structure PageOps (σ : Type) where
  goto : σ → String → List (String × JValue) → Except String σ
  click : σ → String → List (String × JValue) → Except String σ
  fill : σ → String → String → List (String × JValue) → Except String σ
  waitForSelector : σ → String → List (String × JValue) → Except String σ
  screenshot : σ → String → List (String × JValue) → Except String σ

/-- `dict(action.options or {})`. -/
def optionsOf (a : BrowserAction) : List (String × JValue) :=
  a.options.getD []

/-- `BrowserAutomation._handle_goto`. -/
def handleGoto {σ : Type} (ops : PageOps σ) (s : σ) (a : BrowserAction)
    (base : Option String) : Except String σ :=
  match resolveUrl a base with
  | Except.error e => Except.error e
  | Except.ok u => ops.goto s u (optionsOf a)

/-- `BrowserAutomation._handle_click`. -/
def handleClick {σ : Type} (ops : PageOps σ) (s : σ) (a : BrowserAction) :
    Except String σ :=
  if truthy a.selector then ops.click s (a.selector.getD "") (optionsOf a)
  else Except.error "click action requires a selector"

/-- `BrowserAutomation._handle_fill`: needs a truthy selector and a present
`text` (Python tests `action.text is None`, so an empty string is allowed). -/
def handleFill {σ : Type} (ops : PageOps σ) (s : σ) (a : BrowserAction) :
    Except String σ :=
  if truthy a.selector then
    match a.text with
    | none => Except.error "fill action requires text to input"
    | some t => ops.fill s (a.selector.getD "") t (optionsOf a)
  else Except.error "fill action requires a selector"

/-- `BrowserAutomation._handle_wait_for_selector`. -/
def handleWait {σ : Type} (ops : PageOps σ) (s : σ) (a : BrowserAction) :
    Except String σ :=
  if truthy a.selector then ops.waitForSelector s (a.selector.getD "") (optionsOf a)
  else Except.error "wait_for_selector action requires a selector"

/-- `BrowserAutomation._handle_screenshot`: the bridge form requires a truthy
`path` (unlike the standalone runner, which defaults it). -/
def handleScreenshot {σ : Type} (ops : PageOps σ) (s : σ) (a : BrowserAction) :
    Except String σ :=
  if truthy a.path then ops.screenshot s (a.path.getD "") (optionsOf a)
  else Except.error "screenshot action requires a path"

/-- Handler dispatch: `getattr(self, f"_handle_\x7baction.name\x7d")`.  All
five supported names have handlers; any other name raises `AttributeError`,
which `_execute_action` catches in its first `try`. -/
def runHandler {σ : Type} (ops : PageOps σ) (s : σ) (a : BrowserAction)
    (base : Option String) : Except String σ :=
  if a.name = "goto" then handleGoto ops s a base
  else if a.name = "click" then handleClick ops s a
  else if a.name = "fill" then handleFill ops s a
  else if a.name = "wait_for_selector" then handleWait ops s a
  else if a.name = "screenshot" then handleScreenshot ops s a
  else Except.error ("no attribute _handle_" ++ a.name)

/-- `BrowserAutomation._execute_action`: run the handler; any raised message
becomes a failed `ActionResult` with the full message as `detail`; success
gives a successful result with no detail.  The function is total: it always
returns an `ActionResult` and never propagates the handler's exception.
On failure the page state is kept as it was before the call (the Python
object may have been mutated mid-action by the engine; no claim depends on
the failed-call state, so the oracle's pre-state is retained). -/
def executeAction {σ : Type} (ops : PageOps σ) (s : σ) (a : BrowserAction)
    (base : Option String) : ActionResult × σ :=
  match runHandler ops s a base with
  | Except.ok s2 => ({ name := a.name, success := true, detail := none }, s2)
  | Except.error msg => ({ name := a.name, success := false, detail := some msg }, s)

/-! ## Run loop (`BrowserAutomation.run`) -/

/-- Events observable at the session-management level of a run. -/
inductive REvent where
  | launch : REvent
  | newContext : REvent
  | ctxClose : REvent
  | browserClose : REvent
  | act (name : String) : REvent
  deriving Repr, DecidableEq

/-- The `for action in actions` body of `BrowserAutomation.run`: execute,
append the result, and stop after a failure when `stop_on_failure` is set.
Also records one `REvent.act` per attempted action. -/
def runLoop {σ : Type} (ops : PageOps σ) (base : Option String)
    (stop : Bool) : σ → List BrowserAction → List ActionResult × List REvent
  | _, [] => ([], [])
  | s, a :: rest =>
      let r := executeAction ops s a base
      if !r.1.success && stop then ([r.1], [REvent.act a.name])
      else
        let t := runLoop ops base stop r.2 rest
        (r.1 :: t.1, REvent.act a.name :: t.2)

/-- `BrowserAutomation.run` with its resource scope: launch the browser,
`try` acquire a context, `try` acquire a page and run the loop, `finally`
close the context, `finally` close the browser.  `ctxRes` and `pageRes` are
oracles for `browser.new_context(...)` and `context.new_page()`; a raised
step cannot occur (`_execute_action` is total), so the inner `try` body can
only raise through `new_page`. -/
def bridgeRun {σ : Type} (ctxRes : Except String Unit)
    (pageRes : Except String Unit) (ops : PageOps σ) (s0 : σ)
    (base : Option String) (stop : Bool) (actions : List BrowserAction) :
    Except String (List ActionResult) × List REvent :=
  match ctxRes with
  | Except.error e => (Except.error e, [REvent.launch, REvent.browserClose])
  | Except.ok _ =>
      let inner : Except String (List ActionResult) × List REvent :=
        match pageRes with
        | Except.error e => (Except.error e, [])
        | Except.ok _ =>
            let t := runLoop ops base stop s0 actions
            (Except.ok t.1, t.2)
      (inner.1,
        [REvent.launch, REvent.newContext] ++ inner.2
          ++ [REvent.ctxClose, REvent.browserClose])

/-- `run_from_config` from `src/app/browser_tool.py`: a load failure writes a
message and returns exit code 2 with no run; otherwise the automation runs
and the exit code is 0 when `result.successful` else 1.  A run that raises
(for example a session acquisition failure) propagates out of
`run_from_config` uncaught, modelled by the `Except.error` branch.  The
second component is the trace of session events of the run (empty when the
run never starts). -/
def runFromConfig {σ : Type} (loadRes : Except String AutomationConfig)
    (ctxRes pageRes : Except String Unit) (ops : PageOps σ) (s0 : σ)
    (stop : Bool) : Except String Int × List REvent :=
  match loadRes with
  | Except.error _ => (Except.ok 2, [])
  | Except.ok cfg =>
      let t := bridgeRun ctxRes pageRes ops s0 cfg.base_url stop cfg.actions
      match t.1 with
      | Except.error e => (Except.error e, t.2)
      | Except.ok results =>
          (Except.ok (if successful results then 0 else 1), t.2)

/-! ## Standalone runner (`src/playwright_autobot.py`) -/

/-- `Step` from `src/playwright_autobot.py`.  `seconds` is kept as an integer
count (no claim exercises fractional sleep durations). -/
structure Step where
  action : String
  selector : Option String := none
  value : Option String := none
  url : Option String := none
  timeout : Option Int := none
  retries : Option Int := none
  wait_until : Option String := none
  path : Option String := none
  full_page : Option Bool := none
  seconds : Option Int := none
  deriving Repr, BEq

/-- `BotConfig` from `src/playwright_autobot.py`. -/
structure BotConfig where
  start_url : Option String := none
  steps : List Step := []
  profile : String := "./pw_profile"
  headless : Bool := false
  browser : String := "chromium"
  default_timeout : Int := 15000
  step_default_retries : Int := 2
  deriving Repr, BEq

/-- `retries = st.retries if st.retries is not None else
cfg.step_default_retries` in `AutoBot.run`. -/
def effectiveRetries (st : Step) (cfg : BotConfig) : Int :=
  st.retries.getD cfg.step_default_retries

/-- The `while True` retry loop of `AutoBot.run` for one step.  `ex` is the
oracle for one attempt of the step body (attempt number, page state); a
failing attempt yields the exception message together with the mutated
state.  `remaining` counts the attempts still allowed after the current one;
the loop enters with `remaining = max(1, retries)` because Python re-raises
only when `attempt > max(1, retries)`.  Returns the outcome (error message
on exhaustion), the final state and the number of attempts performed. -/
def retryGo {σ : Type} (ex : Nat → σ → Option String × σ) :
    Nat → Nat → σ → (Option String × σ) × Nat
  | attempt, remaining, s =>
      match ex attempt s with
      | (none, s2) => ((none, s2), attempt)
      | (some e, s2) =>
          match remaining with
          | 0 => ((some e, s2), attempt)
          | r + 1 => retryGo ex (attempt + 1) r s2

/-- One step of `AutoBot.run`: the retry loop entered at attempt 1 with the
budget `max(1, effective_retries)`. -/
def runOneStep {σ : Type} (ex : Nat → σ → Option String × σ) (st : Step)
    (cfg : BotConfig) (s : σ) : (Option String × σ) × Nat :=
  retryGo ex 1 (max 1 (effectiveRetries st cfg)).toNat s

/-- The `for i, st in enumerate(self.cfg.steps, start=1)` loop of
`AutoBot.run`: each step runs its retry loop; an exhausted step re-raises,
aborting the loop with the raw exception.  `ex` is indexed by the 1-based
step number and the attempt number. -/
def stepsLoop {σ : Type} (ex : Nat → Nat → σ → Option String × σ)
    (cfg : BotConfig) : Nat → List Step → σ → Option String × σ
  | _, [], s => (none, s)
  | i, st :: rest, s =>
      let r := runOneStep (ex i) st cfg s
      match r.1.1 with
      | some e => (some e, r.1.2)
      | none => stepsLoop ex cfg (i + 1) rest r.1.2

/-- `AutoBot.run` with its session events: launch the persistent context,
navigate to `start_url` when configured (outside the retry machinery, a
failure here propagates), run the step loop (an exhausted step re-raises),
then — only on the normal path — call `self.context.close()` and return 0.
The `context.close()` call is the last statement of the method and is not
inside a `try`/`finally`, so an exception escaping the step loop (or the
start navigation) skips it; the surrounding `with sync_playwright()` block
is the external library's own shutdown, not a close call of this code. -/
def autobotRun {σ : Type} (launchRes : Except String σ)
    (startNav : σ → Option String × σ)
    (ex : Nat → Nat → σ → Option String × σ) (cfg : BotConfig) :
    Except String Int × List REvent :=
  match launchRes with
  | Except.error e => (Except.error e, [])
  | Except.ok s0 =>
      let nav : Option String × σ :=
        match cfg.start_url with
        | some _ => startNav s0
        | none => (none, s0)
      match nav.1 with
      | some e => (Except.error e, [REvent.launch])
      | none =>
          match (stepsLoop ex cfg 1 cfg.steps nav.2).1 with
          | some e => (Except.error e, [REvent.launch])
          | none => (Except.ok 0, [REvent.launch, REvent.ctxClose])

/-- `main` from `src/playwright_autobot.py`: the config load happens before
the `try` block, so a load failure propagates out of `main` uncaught; inside
the `try`, `bot.run()` returns its status and any exception is caught and
turned into return value 1. -/
def autobotMain {σ : Type} (loadRes : Except String BotConfig)
    (launchRes : Except String σ) (startNav : σ → Option String × σ)
    (ex : Nat → Nat → σ → Option String × σ) : Except String Int :=
  match loadRes with
  | Except.error e => Except.error e
  | Except.ok cfg =>
      match (autobotRun launchRes startNav ex cfg).1 with
      | Except.ok n => Except.ok n
      | Except.error _ => Except.ok 1

/-- Modelled from the spec: the process exit status of
`sys.exit(main())` — the returned integer when `main` returns, and the
Python interpreter's status 1 when an exception escapes `main` uncaught
(CPython prints a traceback and exits with status 1). -/
def processStatus : Except String Int → Int
  | Except.ok n => n
  | Except.error _ => 1

/-- `AutoBot._do_screenshot`: `path = step.path or "screenshot.png"`
(Python falsiness: absent or empty defaults) and
`full = bool(step.full_page) if step.full_page is not None else True`.
`shot` is the oracle for `page.screenshot(path=..., full_page=...)`. -/
def doScreenshot {σ : Type} (shot : σ → String → Bool → Option String × σ)
    (s : σ) (st : Step) : Option String × σ :=
  let path := if truthy st.path then st.path.getD "" else "screenshot.png"
  let full := st.full_page.getD true
  shot s path full

/-! ## Comment stripping (`load_json_or_jsonc`) -/

/-- Does the list contain the two adjacent characters `a` then `b`? -/
def hasPair (a b : Char) : List Char → Bool
  | [] => false
  | c :: r => if c = a ∧ r.head? = some b then true else hasPair a b r

/-- Scanner state for the line-comment pass: scanning plain text, holding a
slash that may open a comment, or inside a line comment. -/
inductive LCState where
  | normal : LCState
  | pending : LCState
  | comment : LCState
  deriving Repr, DecidableEq

/-- `re.sub(r"//.*?$", "", text, flags=re.MULTILINE)` as a left-to-right
one-character scan: two adjacent slashes start a match that must extend to
the end of the line (the lazy quantifier still reaches the line end because
`.` cannot cross a newline); the newline itself is outside the match and
kept, and scanning resumes after it.  A lone slash is held back one step
(`pending`) and emitted unchanged when not followed by a second slash. -/
def lcAux : LCState → List Char → List Char
  | LCState.normal, [] => []
  | LCState.pending, [] => ['/']
  | LCState.comment, [] => []
  | LCState.normal, c :: r =>
      if c = '/' then lcAux LCState.pending r else c :: lcAux LCState.normal r
  | LCState.pending, c :: r =>
      if c = '/' then lcAux LCState.comment r
      else '/' :: c :: lcAux LCState.normal r
  | LCState.comment, c :: r =>
      if c = '\n' then '\n' :: lcAux LCState.normal r else lcAux LCState.comment r

/-- The line-comment pass. -/
def stripLC (l : List Char) : List Char :=
  lcAux LCState.normal l

/-- Scanner state for the block-comment pass: scanning, holding a possible
opening slash, inside a candidate block comment (buffering the characters
consumed so far, in reverse, in case no terminator ever arrives and the
regex therefore never matches), or inside a candidate comment having just
seen a star that may begin the terminator. -/
inductive BCState where
  | normal : BCState
  | pending : BCState
  | inBlock (buf : List Char) : BCState
  | inStar (buf : List Char) : BCState
  deriving Repr, DecidableEq

/-- `re.sub(r"/\*.*?\*/", "", text, flags=re.DOTALL)` as a left-to-right
one-character scan: slash-star opens a candidate match that is dropped up
to the first star-slash terminator (the lazy quantifier picks the earliest
one); if the input ends with no terminator the pattern never matched there,
so the buffered characters are restored verbatim.  Scanning resumes after a
dropped match. -/
def bcAux : BCState → List Char → List Char
  | BCState.normal, [] => []
  | BCState.pending, [] => ['/']
  | BCState.inBlock buf, [] => '/' :: '*' :: buf.reverse
  | BCState.inStar buf, [] => '/' :: '*' :: (buf.reverse ++ ['*'])
  | BCState.normal, c :: r =>
      if c = '/' then bcAux BCState.pending r else c :: bcAux BCState.normal r
  | BCState.pending, c :: r =>
      if c = '*' then bcAux (BCState.inBlock []) r
      else if c = '/' then '/' :: bcAux BCState.pending r
      else '/' :: c :: bcAux BCState.normal r
  | BCState.inBlock buf, c :: r =>
      if c = '*' then bcAux (BCState.inStar buf) r
      else bcAux (BCState.inBlock (c :: buf)) r
  | BCState.inStar buf, c :: r =>
      if c = '/' then bcAux BCState.normal r
      else if c = '*' then bcAux (BCState.inStar ('*' :: buf)) r
      else bcAux (BCState.inBlock (c :: '*' :: buf)) r

/-- The block-comment pass. -/
def stripBC (l : List Char) : List Char :=
  bcAux BCState.normal l

/-- The comment-stripping preprocessing of `load_json_or_jsonc`
(`src/playwright_autobot.py`): line comments are removed first over the
whole text, then block comments; quoted strings receive no special
treatment. -/
def stripJsonc (text : String) : String :=
  String.mk (stripBC (stripLC text.data))

/-! ### A grammar of comment-bearing documents for stating claim C8. -/

/-- A piece of a comment-bearing document: plain text, a line comment
(`//` + content + newline) or a block comment (`/*` + content + `*/`). -/
inductive Chunk where
  | text (s : String) : Chunk
  | line (s : String) : Chunk
  | block (s : String) : Chunk
  deriving Repr, DecidableEq

/-- The concrete characters of one chunk. -/
def renderChunk : Chunk → List Char
  | Chunk.text s => s.data
  | Chunk.line s => '/' :: '/' :: (s.data ++ ['\n'])
  | Chunk.block s => '/' :: '*' :: (s.data ++ ['*', '/'])

/-- A document as characters. -/
def renderL : List Chunk → List Char
  | [] => []
  | c :: cs => renderChunk c ++ renderL cs

/-- One chunk after the line-comment pass: a line comment leaves only its
newline; everything else is untouched. -/
def midChunk : Chunk → List Char
  | Chunk.text s => s.data
  | Chunk.line _ => ['\n']
  | Chunk.block s => '/' :: '*' :: (s.data ++ ['*', '/'])

/-- The document after the line-comment pass. -/
def midL : List Chunk → List Char
  | [] => []
  | c :: cs => midChunk c ++ midL cs

/-- One chunk of the comment-free equivalent: a line comment contributes its
newline, a block comment contributes nothing. -/
def plainChunk : Chunk → List Char
  | Chunk.text s => s.data
  | Chunk.line _ => ['\n']
  | Chunk.block _ => []

/-- The comment-free equivalent document. -/
def plainL : List Chunk → List Char
  | [] => []
  | c :: cs => plainChunk c ++ plainL cs

/-- Well-formedness of one chunk: text must not itself open a comment
(no adjacent slash-slash or slash-star), must be nonempty and must not
start or end with a slash (which could fuse with a neighbour into a
comment opener); line-comment content stays on one line; block-comment
content must not contain its own terminator and no slash-slash (the
line-comment pass runs first over the raw text, block comments included). -/
def chunkOKb : Chunk → Bool
  | Chunk.text s =>
      !hasPair '/' '/' s.data && !hasPair '/' '*' s.data
        && !s.data.isEmpty && !(s.data.head? = some '/') && !(s.data.getLast? = some '/')
  | Chunk.line s => !s.data.contains '\n'
  | Chunk.block s => !hasPair '*' '/' s.data && !hasPair '/' '/' s.data

/-- A block comment's trailing slash would fuse with a following `//` or
`/*` opener into a spurious line comment, so a block chunk may only be
followed by a text chunk. -/
def adjOKb : Chunk → Chunk → Bool
  | Chunk.block _, Chunk.text _ => true
  | Chunk.block _, _ => false
  | _, _ => true

/-- Well-formedness of a document decomposition. -/
def seqOKb : List Chunk → Bool
  | [] => true
  | [c] => chunkOKb c
  | c :: d :: rest => chunkOKb c && adjOKb c d && seqOKb (d :: rest)

/-! ## Claim-side definitions and concrete oracles -/

/-- Position of the first failed outcome in a result list (0-based). -/
def firstFailureIdx : List ActionResult → Option Nat
  | [] => none
  | r :: rest => if r.success then (firstFailureIdx rest).map (fun i => i + 1) else some 0

/-- A page on which every operation succeeds. -/
def okOps : PageOps Unit where
  goto := fun _ _ _ => Except.ok ()
  click := fun _ _ _ => Except.ok ()
  fill := fun _ _ _ _ => Except.ok ()
  waitForSelector := fun _ _ _ => Except.ok ()
  screenshot := fun _ _ _ => Except.ok ()

/-- A page on which every operation raises with the given message. -/
def errOps (msg : String) : PageOps Unit where
  goto := fun _ _ _ => Except.error msg
  click := fun _ _ _ => Except.error msg
  fill := fun _ _ _ _ => Except.error msg
  waitForSelector := fun _ _ _ => Except.error msg
  screenshot := fun _ _ _ => Except.error msg

/-- A page that records every navigated URL and succeeds. -/
def recOps : PageOps (List String) where
  goto := fun s u _ => Except.ok (s ++ [u])
  click := fun s _ _ => Except.ok s
  fill := fun s _ _ _ => Except.ok s
  waitForSelector := fun s _ _ => Except.ok s
  screenshot := fun s _ _ => Except.ok s

/-- Claim C3's words, made precise: a failed outcome's detail is a
*truncated* message, that is, capped at some fixed bound.  The only
truncation bounds appearing anywhere in the repository are the 200- and
300-character log truncations of `AutoBot.run`; 300, the larger, is the
most generous reading. -/
def claimDetailTruncated (r : ActionResult) : Bool :=
  match r.detail with
  | none => true
  | some d => decide (d.length ≤ 300)

/-- A 350-character exception message, longer than any truncation bound in
the repository. -/
def longDetailMsg : String :=
  String.mk (List.replicate 350 'x')

/-- Is a declared string-typed optional field present with a non-string
value?  (Claim C7's "a declared string-typed optional field holds a
non-string".) -/
def strFieldBad (kvs : List (String × JValue)) (k : String) : Bool :=
  match jget kvs k with
  | none => false
  | some (JValue.str _) => false
  | some _ => true

/-- Claim C7's "any action's name is absent or outside the five recognized
values". -/
def nameBad (kvs : List (String × JValue)) : Bool :=
  match jlookup kvs "name" with
  | none => true
  | some (JValue.str s) => decide (s ∉ supportedActions)
  | some _ => true

/-- Is `options` present with a non-mapping value?  (Not among claim C7's
listed causes; needed for the amended claim.) -/
def optionsBad (kvs : List (String × JValue)) : Bool :=
  match jget kvs "options" with
  | none => false
  | some (JValue.obj _) => false
  | some _ => true

/-- Is `settings` present with a non-mapping value? -/
def settingsBad (kvs : List (String × JValue)) : Bool :=
  match jget kvs "settings" with
  | none => false
  | some (JValue.obj _) => false
  | some _ => true

/-- Is the `actions` key absent or its value not a sequence? -/
def actionsKeyBad (kvs : List (String × JValue)) : Bool :=
  match jget kvs "actions" with
  | some (JValue.arr _) => false
  | _ => true

/-- One action entry's failure causes as listed by claim C7: bad name, or a
string-typed optional field holding a non-string.  The claim lists nothing
for a non-mapping entry or a non-mapping `options` value. -/
def actionEntryBadSpec (v : JValue) : Bool :=
  match v with
  | JValue.obj kvs =>
      nameBad kvs
        || strFieldBad kvs "selector" || strFieldBad kvs "text"
        || strFieldBad kvs "url" || strFieldBad kvs "path"
  | _ => false

/-- One action entry's failure causes in the amended claim: additionally a
non-mapping entry and a non-mapping `options` value. -/
def actionEntryBadAmended (v : JValue) : Bool :=
  match v with
  | JValue.obj kvs =>
      nameBad kvs || optionsBad kvs
        || strFieldBad kvs "selector" || strFieldBad kvs "text"
        || strFieldBad kvs "url" || strFieldBad kvs "path"
  | _ => true

/-- Claim C7's exhaustive list of load-failure causes, as stated. -/
def specLoadFails (raw : JValue) : Bool :=
  match raw with
  | JValue.obj kvs =>
      strFieldBad kvs "base_url" || settingsBad kvs || actionsKeyBad kvs
        || (match jget kvs "actions" with
            | some (JValue.arr xs) => xs.any actionEntryBadSpec
            | _ => false)
  | _ => true

/-- The amended exhaustive list of load-failure causes. -/
def amendedLoadFails (raw : JValue) : Bool :=
  match raw with
  | JValue.obj kvs =>
      strFieldBad kvs "base_url" || settingsBad kvs || actionsKeyBad kvs
        || (match jget kvs "actions" with
            | some (JValue.arr xs) => xs.any actionEntryBadAmended
            | _ => false)
  | _ => true

/-- The bridge-form document claim C7 fails on: structurally valid except
that the single action's `options` value is a string. -/
def c7Document : JValue :=
  JValue.obj [("actions", JValue.arr
    [JValue.obj [("name", JValue.str "click"),
                 ("selector", JValue.str "#go"),
                 ("options", JValue.str "oops")]])]

/-- Did the `Except` computation succeed? -/
def exceptOk {α : Type} : Except String α → Bool
  | Except.ok _ => true
  | Except.error _ => false

/-- A concrete comment-bearing configuration document, decomposed into
chunks, for evaluating claim C8's theorem. -/
def c8DocChunks : List Chunk :=
  [Chunk.text "\x7b \x22settings\x22: \x7b\x7d, ",
   Chunk.line " run headless",
   Chunk.text "\x22actions\x22: [\x7b\x22name\x22: \x22click\x22\x7d] ",
   Chunk.block " multi\nline note ",
   Chunk.text "\x7d"]

/-- `load_json_or_jsonc` from `src/playwright_autobot.py` as a whole: strip
line comments, then block comments, then parse the stripped text.  `parse`
stands for `json.loads`, an external library capability. -/
def loadJsonOrJsonc (parse : String → Except String JValue) (text : String) :
    Except String JValue :=
  parse (stripJsonc text)

/-- The load stage of `load_config` in `src/app/browser_tool.py` (lines
42 and 43): `json.loads(content)` is applied to the raw file text — no
comment stripping of any kind — and the parsed value then goes through the
structural validation of `loadConfig`.  A parse failure propagates (it is
the `ValueError` that `run_from_config` turns into exit status 2). -/
def loadConfigText (parse : String → Except String JValue) (text : String) :
    Except String AutomationConfig :=
  match parse text with
  | Except.error e => Except.error e
  | Except.ok raw => loadConfig raw

/-- A concrete comment-bearing bridge configuration document: a line
comment followed by a minimal valid configuration object. -/
def c8Document : String :=
  "//c\n\x7b\x22actions\x22: []\x7d"

/-- Modelled from the spec: Python's `json.loads` (standard library, not
part of this repository), restricted to the two documents of the claim C8
counterexample.  The JSON grammar has no construct beginning with a slash,
so the raw comment-bearing text raises `JSONDecodeError`; the stripped
equivalent — a newline followed by an object with an empty `actions`
array — parses to that object.  Every other input is outside the model and
conservatively reported as a parse error. -/
def jsonLoadsC8 (text : String) : Except String JValue :=
  if text = "\n\x7b\x22actions\x22: []\x7d" then
    Except.ok (JValue.obj [("actions", JValue.arr [])])
  else Except.error "Expecting value: line 1 column 1 (char 0)"

end BrowserBot

/-!
# Theorems

Claim theorems are named `cN_...`; auxiliary lemmas carry descriptive
names and are shared freely.
-/

namespace BrowserBot

/-! ## Run-loop accounting (claims C1, C2) -/

theorem runLoop_nostop_length {σ : Type} (ops : PageOps σ) (base : Option String)
    (acts : List BrowserAction) : ∀ (s : σ),
    (runLoop ops base false s acts).1.length = acts.length := by
  induction acts with
  | nil => intro s; rfl
  | cons a rest ih => intro s; simp [runLoop, ih]

theorem runLoop_stop_length {σ : Type} (ops : PageOps σ) (base : Option String)
    (acts : List BrowserAction) : ∀ (s : σ),
    (runLoop ops base true s acts).1.length =
      match firstFailureIdx (runLoop ops base false s acts).1 with
      | some i => i + 1
      | none => acts.length := by
  induction acts with
  | nil => intro s; rfl
  | cons a rest ih =>
      intro s
      by_cases h : (executeAction ops s a base).1.success
      · have hrec := ih (executeAction ops s a base).2
        cases hf : firstFailureIdx (runLoop ops base false (executeAction ops s a base).2 rest).1 with
        | none =>
            rw [hf] at hrec
            simp [runLoop, h, firstFailureIdx, hf, hrec]
        | some i =>
            rw [hf] at hrec
            simp [runLoop, h, firstFailureIdx, hf, hrec]
      · simp [runLoop, h, firstFailureIdx]

theorem retryGo_step_none {σ : Type} (ex : Nat → σ → Option String × σ)
    (a r : Nat) (s s2 : σ) (hx : ex a s = (none, s2)) :
    retryGo ex a r s = ((none, s2), a) := by
  unfold retryGo
  rw [hx]

theorem retryGo_step_last {σ : Type} (ex : Nat → σ → Option String × σ)
    (a : Nat) (s : σ) (e : String) (s2 : σ) (hx : ex a s = (some e, s2)) :
    retryGo ex a 0 s = ((some e, s2), a) := by
  unfold retryGo
  rw [hx]

theorem retryGo_step_retry {σ : Type} (ex : Nat → σ → Option String × σ)
    (a r : Nat) (s : σ) (e : String) (s2 : σ) (hx : ex a s = (some e, s2)) :
    retryGo ex a (r + 1) s = retryGo ex (a + 1) r s2 := by
  conv_lhs => rw [retryGo]
  rw [hx]

theorem retryGo_allfail {σ : Type} (ex : Nat → σ → Option String × σ)
    (h : ∀ n s2, (ex n s2).1.isSome = true) :
    ∀ (r a : Nat) (s : σ),
    (retryGo ex a r s).2 = a + r ∧ (retryGo ex a r s).1.1.isSome = true := by
  intro r
  induction r with
  | zero =>
      intro a s
      have hs := h a s
      cases hx : ex a s with
      | mk o s2 =>
          rw [hx] at hs
          cases o with
          | none => simp at hs
          | some e => rw [retryGo_step_last ex a s e s2 hx]; simp
  | succ r ih =>
      intro a s
      have hs := h a s
      cases hx : ex a s with
      | mk o s2 =>
          rw [hx] at hs
          cases o with
          | none => simp at hs
          | some e =>
              rw [retryGo_step_retry ex a r s e s2 hx]
              have ih2 := ih (a + 1) s2
              exact ⟨by rw [ih2.1]; omega, ih2.2⟩

/-- Claim C2 (confirmed): with stop-on-failure, the outcome count equals the
1-based position of the first failing step (never more, never fewer); with
stop-on-failure off, the run completes and the outcome count equals the
full step count. -/
theorem c2_outcome_count {σ : Type} (ops : PageOps σ) (base : Option String)
    (s : σ) (acts : List BrowserAction) :
    ((runLoop ops base true s acts).1.length =
      match firstFailureIdx (runLoop ops base false s acts).1 with
      | some i => i + 1
      | none => acts.length) ∧
    (runLoop ops base false s acts).1.length = acts.length :=
  ⟨runLoop_stop_length ops base acts s, runLoop_nostop_length ops base acts s⟩

/-- Claim C1 counterexample: with a step-level retries override of 0, a step
whose attempts all fail is attempted twice — `1 + max(1, retries)` times —
not the `1 + effective_retries = 1` times the claim states. -/
theorem c1_counterexample :
    (runOneStep (fun _ s => (some "boom", s))
        { action := "click", retries := some 0 } {} ()).2 = 2 ∧
    ¬ ((runOneStep (fun _ s => (some "boom", s))
        { action := "click", retries := some 0 } {} ()).2
      = 1 + (effectiveRetries { action := "click", retries := some 0 } {}).toNat) := by
  exact ⟨rfl, by decide⟩

/-- Claim C1 amended: a step whose every attempt fails is attempted exactly
`1 + max(1, effective_retries)` times by the standalone runner's retry loop
(so `1 + effective_retries` only when the effective retries are at least 1),
and the failure then propagates (no outcome is recorded there); the bridge
executor, which never retries, records exactly one failed outcome for such a
step. -/
theorem c1_amended :
    (∀ {σ : Type} (ex : Nat → σ → Option String × σ) (st : Step)
       (cfg : BotConfig) (s : σ),
       (∀ n s2, (ex n s2).1.isSome = true) →
       (runOneStep ex st cfg s).2 = 1 + (max 1 (effectiveRetries st cfg)).toNat ∧
       (runOneStep ex st cfg s).1.1.isSome = true) ∧
    (∀ {σ : Type} (ops : PageOps σ) (s : σ) (a : BrowserAction)
       (base : Option String) (stop : Bool),
       (executeAction ops s a base).1.success = false →
       runLoop ops base stop s [a]
         = ([(executeAction ops s a base).1], [REvent.act a.name])) := by
  constructor
  · intro σ ex st cfg s h
    have h2 := retryGo_allfail ex h (max 1 (effectiveRetries st cfg)).toNat 1 s
    exact ⟨h2.1, h2.2⟩
  · intro σ ops s a base stop h
    cases stop <;> simp [runLoop, h]

/-- Witness for the amended claim C1: a concrete all-failing step with a
retries override of 3 is attempted 4 times, and a concrete failing bridge
step yields exactly one failed outcome. -/
theorem c1_witness :
    ((runOneStep (fun _ s => (some "boom", s))
        { action := "click", retries := some 3 } {} ()).2
      = 1 + (max 1 (effectiveRetries { action := "click", retries := some 3 } {})).toNat ∧
     (runOneStep (fun _ s => (some "boom", s))
        { action := "click", retries := some 3 } {} ()).1.1.isSome = true) ∧
    runLoop (errOps "gone") none true () [{ name := "click", selector := some "#go" }]
      = ([(executeAction (errOps "gone") () { name := "click", selector := some "#go" } none).1],
         [REvent.act "click"]) :=
  ⟨c1_amended.1 (fun _ s => (some "boom", s))
      { action := "click", retries := some 3 } {} () (fun _ _ => rfl),
   c1_amended.2 (errOps "gone") () { name := "click", selector := some "#go" } none true (by decide)⟩

end BrowserBot

namespace BrowserBot

/-- Claim C6 (confirmed): with base URL `https://example.com`, a goto step
with path `/dash` and no url resolves to exactly
`https://example.com/dash`, and the executor navigates there. -/
theorem c6_url_resolution :
    resolveUrl { name := "goto", path := some "/dash" } (some "https://example.com")
      = Except.ok "https://example.com/dash" ∧
    executeAction recOps [] { name := "goto", path := some "/dash" }
        (some "https://example.com")
      = ({ name := "goto", success := true, detail := none },
         ["https://example.com/dash"]) := by
  exact ⟨rfl, rfl⟩

/-- Claim C10 (confirmed): an empty action sequence yields a report with no
outcomes whose overall success is true, the bridge CLI exits 0, and the
session trace holds only acquisition and release — no action events. -/
theorem c10_empty_run {σ : Type} (ops : PageOps σ) (s0 : σ)
    (base : Option String) (stop : Bool) (settings : List (String × JValue)) :
    bridgeRun (Except.ok ()) (Except.ok ()) ops s0 base stop []
      = (Except.ok [],
         [REvent.launch, REvent.newContext, REvent.ctxClose, REvent.browserClose]) ∧
    successful [] = true ∧
    runFromConfig (Except.ok { actions := [], base_url := base, settings })
        (Except.ok ()) (Except.ok ()) ops s0 stop
      = (Except.ok 0,
         [REvent.launch, REvent.newContext, REvent.ctxClose, REvent.browserClose]) ∧
    ∀ (n : String),
      REvent.act n ∉
        [REvent.launch, REvent.newContext, REvent.ctxClose, REvent.browserClose] := by
  refine ⟨rfl, rfl, rfl, ?_⟩
  intro n
  simp

/-! ## Step executor error containment (claims C3, C9) -/

set_option maxRecDepth 4000 in
/-- Claim C3 counterexample: a 350-character exception message survives in
full as the outcome's detail — the bridge executor does not truncate it
(the repository's only truncations, at 200 and 300 characters, are in the
standalone runner's log lines). -/
theorem c3_counterexample :
    claimDetailTruncated
      (executeAction (errOps longDetailMsg) ()
        { name := "click", selector := some "#go" } none).1 = false ∧
    (executeAction (errOps longDetailMsg) ()
        { name := "click", selector := some "#go" } none).1.detail
      = some longDetailMsg := by
  exact ⟨by decide, rfl⟩

/-- Claim C3 amended: every missing required field, unknown action name and
underlying browser failure is caught and converted into a failed outcome,
and the executor always returns an outcome, never propagating the raw
exception — but the detail carries the full exception text, untruncated. -/
theorem c3_amended :
    (∀ {σ : Type} (ops : PageOps σ) (s : σ) (a : BrowserAction)
       (base : Option String),
       a.name = "click" → truthy a.selector = false →
       (executeAction ops s a base).1
         = { name := "click", success := false,
             detail := some "click action requires a selector" }) ∧
    (∀ {σ : Type} (ops : PageOps σ) (s : σ) (a : BrowserAction)
       (base : Option String),
       a.name ∉ supportedActions →
       (executeAction ops s a base).1.success = false ∧
       (executeAction ops s a base).1.detail.isSome = true) ∧
    (∀ {σ : Type} (ops : PageOps σ) (s : σ) (a : BrowserAction)
       (base : Option String) (msg : String),
       runHandler ops s a base = Except.error msg →
       (executeAction ops s a base).1
         = { name := a.name, success := false, detail := some msg }) ∧
    (∀ {σ : Type} (ops : PageOps σ) (s : σ) (a : BrowserAction)
       (base : Option String),
       ((executeAction ops s a base).1.success = true ∧
        (executeAction ops s a base).1.detail = none) ∨
       ((executeAction ops s a base).1.success = false ∧
        (executeAction ops s a base).1.detail.isSome = true)) := by
  refine ⟨?_, ?_, ?_, ?_⟩
  · intro σ ops s a base h1 h2
    simp [executeAction, runHandler, handleClick, h1, h2]
  · intro σ ops s a base h
    have hg : ¬ a.name = "goto" := fun e => h (by rw [e]; simp [supportedActions])
    have hc : ¬ a.name = "click" := fun e => h (by rw [e]; simp [supportedActions])
    have hf : ¬ a.name = "fill" := fun e => h (by rw [e]; simp [supportedActions])
    have hw : ¬ a.name = "wait_for_selector" := fun e => h (by rw [e]; simp [supportedActions])
    have hs : ¬ a.name = "screenshot" := fun e => h (by rw [e]; simp [supportedActions])
    simp [executeAction, runHandler, hg, hc, hf, hw, hs]
  · intro σ ops s a base msg h
    simp [executeAction, h]
  · intro σ ops s a base
    cases hr : runHandler ops s a base with
    | error e => right; simp [executeAction, hr]
    | ok s2 => left; simp [executeAction, hr]

/-- Witness for the amended claim C3, at concrete inputs: a selector-less
click, an unrecognized action name, and a handler failure message. -/
theorem c3_witness :
    ((executeAction okOps () { name := "click" } none).1
       = { name := "click", success := false,
           detail := some "click action requires a selector" }) ∧
    ((executeAction okOps () { name := "hover" } none).1.success = false ∧
     (executeAction okOps () { name := "hover" } none).1.detail.isSome = true) ∧
    ((executeAction (errOps "boom") () { name := "goto", url := some "https://x.test" } none).1
       = { name := "goto", success := false, detail := some "boom" }) :=
  ⟨c3_amended.1 okOps () { name := "click" } none rfl rfl,
   c3_amended.2.1 okOps () { name := "hover" } none (by decide),
   c3_amended.2.2.1 (errOps "boom") () { name := "goto", url := some "https://x.test" } none "boom" rfl⟩

/-- Claim C9 counterexample: in the bridge form a screenshot step with no
path does not default the destination — it fails, so not every screenshot
field is optional there. -/
theorem c9_counterexample :
    (executeAction okOps () { name := "screenshot" } none).1
      = { name := "screenshot", success := false,
          detail := some "screenshot action requires a path" } := by
  rfl

/-- Claim C9 amended: in the standalone runner no screenshot field is
required — the path defaults to `screenshot.png` and capture defaults to
full page; in the bridge form the path is required (its absence yields a
failed outcome) and the handler forwards exactly the user-supplied options,
so the capture mode is the engine's viewport-only default unless the
options say otherwise. -/
theorem c9_amended :
    (∀ {σ : Type} (shot : σ → String → Bool → Option String × σ) (s : σ)
       (st : Step), st.path = none → st.full_page = none →
       doScreenshot shot s st = shot s "screenshot.png" true) ∧
    (∀ {σ : Type} (shot : σ → String → Bool → Option String × σ) (s : σ)
       (st : Step) (b : Bool), st.path = none → st.full_page = some b →
       doScreenshot shot s st = shot s "screenshot.png" b) ∧
    (∀ {σ : Type} (shot : σ → String → Bool → Option String × σ) (s : σ)
       (st : Step) (p : String), st.path = some p → p ≠ "" → st.full_page = none →
       doScreenshot shot s st = shot s p true) ∧
    (∀ {σ : Type} (ops : PageOps σ) (s : σ) (a : BrowserAction)
       (base : Option String),
       a.name = "screenshot" → truthy a.path = false →
       (executeAction ops s a base).1
         = { name := "screenshot", success := false,
             detail := some "screenshot action requires a path" }) ∧
    (∀ {σ : Type} (ops : PageOps σ) (s : σ) (a : BrowserAction)
       (base : Option String) (p : String),
       a.name = "screenshot" → a.path = some p → p ≠ "" →
       runHandler ops s a base = ops.screenshot s p (optionsOf a)) := by
  refine ⟨?_, ?_, ?_, ?_, ?_⟩
  · intro σ shot s st h1 h2
    simp [doScreenshot, truthy, h1, h2]
  · intro σ shot s st b h1 h2
    simp [doScreenshot, truthy, h1, h2]
  · intro σ shot s st p h1 h2 h3
    simp [doScreenshot, truthy, h1, h2, h3]
  · intro σ ops s a base h1 h2
    simp [executeAction, runHandler, handleScreenshot, h1, h2]
  · intro σ ops s a base p h1 h2 h3
    simp [runHandler, handleScreenshot, truthy, h1, h2, h3]

/-- Witness for the amended claim C9 at concrete inputs. -/
theorem c9_witness :
    (doScreenshot (fun (_ : List (String × Bool)) p f => ((none : Option String), [(p, f)]))
        [] { action := "screenshot" }
       = (none, [("screenshot.png", true)])) ∧
    (doScreenshot (fun (_ : List (String × Bool)) p f => ((none : Option String), [(p, f)]))
        [] { action := "screenshot", full_page := some false }
       = (none, [("screenshot.png", false)])) ∧
    (doScreenshot (fun (_ : List (String × Bool)) p f => ((none : Option String), [(p, f)]))
        [] { action := "screenshot", path := some "shot.png" }
       = (none, [("shot.png", true)])) ∧
    ((executeAction okOps () { name := "screenshot" } none).1
       = { name := "screenshot", success := false,
           detail := some "screenshot action requires a path" }) ∧
    (runHandler okOps () { name := "screenshot", path := some "shot.png" } none
       = Except.ok ()) :=
  ⟨c9_amended.1 _ [] { action := "screenshot" } rfl rfl,
   c9_amended.2.1 _ [] { action := "screenshot", full_page := some false } false rfl rfl,
   c9_amended.2.2.1 _ [] { action := "screenshot", path := some "shot.png" } "shot.png" rfl (by decide) rfl,
   c9_amended.2.2.2.1 okOps () { name := "screenshot" } none rfl rfl,
   c9_amended.2.2.2.2 okOps () { name := "screenshot", path := some "shot.png" } none "shot.png" rfl rfl (by decide)⟩

end BrowserBot

namespace BrowserBot

/-! ## Session release and exit codes (claims C4, C5) -/

/-- Claim C4 counterexample: in the standalone runner, a step that exhausts
its retries re-raises out of the step loop, and the `context.close()` call —
the last statement of `AutoBot.run`, not guarded by `finally` — is skipped:
the session trace of such a run contains no close event. -/
theorem c4_counterexample :
    REvent.ctxClose ∉
      (autobotRun (Except.ok ()) (fun s => (none, s))
        (fun _ _ s => (some "TimeoutError", s))
        { steps := [{ action := "click", selector := some "#go" }] }).2 := by
  decide

/-- Claim C4 amended: in the bridge executor the context, once acquired, is
closed on every exit path (normal completion and a page-acquisition
failure alike) thanks to the `try`/`finally` nesting; in the standalone
runner the close call runs only on normal completion — an exception
escaping the start navigation or step execution skips it, leaving teardown
to the external playwright context manager. -/
theorem c4_amended :
    (∀ {σ : Type} (pageRes : Except String Unit) (ops : PageOps σ) (s0 : σ)
       (base : Option String) (stop : Bool) (actions : List BrowserAction),
       REvent.ctxClose ∈ (bridgeRun (Except.ok ()) pageRes ops s0 base stop actions).2) ∧
    (∀ {σ : Type} (startNav : σ → Option String × σ)
       (ex : Nat → Nat → σ → Option String × σ) (cfg : BotConfig) (s0 : σ),
       (∃ e, (autobotRun (Except.ok s0) startNav ex cfg).1 = Except.error e) ∨
       ((autobotRun (Except.ok s0) startNav ex cfg).1 = Except.ok 0 ∧
        (autobotRun (Except.ok s0) startNav ex cfg).2
          = [REvent.launch, REvent.ctxClose])) := by
  constructor
  · intro σ pageRes ops s0 base stop actions
    cases pageRes with
    | error e => simp [bridgeRun]
    | ok u => simp [bridgeRun]
  · intro σ startNav ex cfg s0
    unfold autobotRun
    cases hs : cfg.start_url with
    | none =>
        cases hsl : (stepsLoop ex cfg 1 cfg.steps s0).1 with
        | none => right; simp [hsl]
        | some e => left; exact ⟨e, by simp [hsl]⟩
    | some u =>
        cases hnav : startNav s0 with
        | mk o s1 =>
            cases o with
            | some e => left; exact ⟨e, by simp [hnav]⟩
            | none =>
                cases hsl : (stepsLoop ex cfg 1 cfg.steps s1).1 with
                | none => right; simp [hnav, hsl]
                | some e => left; exact ⟨e, by simp [hnav, hsl]⟩

/-- Claim C5 counterexample: in the standalone runner the configuration is
loaded before the `try` block of `main`, so a load failure propagates
uncaught and the process exits with the interpreter's status 1, not the
claimed status 2. -/
theorem c5_counterexample :
    autobotMain (σ := Unit) (Except.error "Expecting value: line 1 column 1")
        (Except.ok ()) (fun s => (none, s)) (fun _ _ s => (none, s))
      = Except.error "Expecting value: line 1 column 1" ∧
    processStatus
      (autobotMain (σ := Unit) (Except.error "Expecting value: line 1 column 1")
        (Except.ok ()) (fun s => (none, s)) (fun _ _ s => (none, s))) ≠ 2 := by
  exact ⟨rfl, by decide⟩

/-- Claim C5 amended: the bridge CLI follows the convention exactly — 2 when
the configuration fails to load (no steps attempted), else 0 when every
outcome succeeded and 1 otherwise; the standalone runner returns 0 on
success and 1 when the run raises, but a configuration load failure
escapes `main` uncaught and the interpreter exits with status 1, not 2. -/
theorem c5_amended :
    (∀ {σ : Type} (e : String) (ctx page : Except String Unit) (ops : PageOps σ)
       (s0 : σ) (stop : Bool),
       runFromConfig (Except.error e) ctx page ops s0 stop = (Except.ok 2, [])) ∧
    (∀ {σ : Type} (cfg : AutomationConfig) (ops : PageOps σ) (s0 : σ) (stop : Bool),
       (runFromConfig (Except.ok cfg) (Except.ok ()) (Except.ok ()) ops s0 stop).1
         = Except.ok
             (if successful (runLoop ops cfg.base_url stop s0 cfg.actions).1 then 0 else 1)) ∧
    (∀ {σ : Type} (cfg : BotConfig) (launch : Except String σ)
       (nav : σ → Option String × σ) (ex : Nat → Nat → σ → Option String × σ)
       (e : String),
       (autobotRun launch nav ex cfg).1 = Except.error e →
       autobotMain (Except.ok cfg) launch nav ex = Except.ok 1 ∧
       processStatus (autobotMain (Except.ok cfg) launch nav ex) = 1) ∧
    (∀ {σ : Type} (cfg : BotConfig) (launch : Except String σ)
       (nav : σ → Option String × σ) (ex : Nat → Nat → σ → Option String × σ),
       (autobotRun launch nav ex cfg).1 = Except.ok 0 →
       autobotMain (Except.ok cfg) launch nav ex = Except.ok 0 ∧
       processStatus (autobotMain (Except.ok cfg) launch nav ex) = 0) ∧
    (∀ {σ : Type} (e : String) (launch : Except String σ)
       (nav : σ → Option String × σ) (ex : Nat → Nat → σ → Option String × σ),
       autobotMain (Except.error e) launch nav ex = Except.error e ∧
       processStatus (autobotMain (Except.error e) launch nav ex) = 1) := by
  refine ⟨?_, ?_, ?_, ?_, ?_⟩
  · intro σ e ctx page ops s0 stop
    rfl
  · intro σ cfg ops s0 stop
    rfl
  · intro σ cfg launch nav ex e h
    constructor
    · simp [autobotMain, h]
    · simp [autobotMain, h, processStatus]
  · intro σ cfg launch nav ex h
    constructor
    · simp [autobotMain, h]
    · simp [autobotMain, h, processStatus]
  · intro σ e launch nav ex
    exact ⟨rfl, rfl⟩

/-- Witness for the amended claim C5: a one-step run that fails every
attempt exits 1; the same runner with an always-succeeding step exits 0. -/
theorem c5_witness :
    (autobotMain (σ := Unit) (Except.ok { steps := [{ action := "click", selector := some "#go" }] })
        (Except.ok ()) (fun s => (none, s)) (fun _ _ s => (some "boom", s))
      = Except.ok 1 ∧
     processStatus
       (autobotMain (σ := Unit) (Except.ok { steps := [{ action := "click", selector := some "#go" }] })
          (Except.ok ()) (fun s => (none, s)) (fun _ _ s => (some "boom", s))) = 1) ∧
    (autobotMain (σ := Unit) (Except.ok { steps := [{ action := "click", selector := some "#go" }] })
        (Except.ok ()) (fun s => (none, s)) (fun _ _ s => (none, s))
      = Except.ok 0 ∧
     processStatus
       (autobotMain (σ := Unit) (Except.ok { steps := [{ action := "click", selector := some "#go" }] })
          (Except.ok ()) (fun s => (none, s)) (fun _ _ s => (none, s))) = 0) :=
  ⟨c5_amended.2.2.1 { steps := [{ action := "click", selector := some "#go" }] }
      (Except.ok ()) (fun s => (none, s)) (fun _ _ s => (some "boom", s)) "boom" rfl,
   c5_amended.2.2.2.1 { steps := [{ action := "click", selector := some "#go" }] }
      (Except.ok ()) (fun s => (none, s)) (fun _ _ s => (none, s)) rfl⟩

/-- Witness for the amended claim C4: a run whose single step succeeds ends
with the close event recorded. -/
theorem c4_witness :
    (∃ e, (autobotRun (Except.ok ()) (fun s => (none, s)) (fun _ _ s => (none, s))
        { steps := [{ action := "click", selector := some "#go" }] }).1 = Except.error e) ∨
    ((autobotRun (Except.ok ()) (fun s => (none, s)) (fun _ _ s => (none, s))
        { steps := [{ action := "click", selector := some "#go" }] }).1 = Except.ok 0 ∧
     (autobotRun (Except.ok ()) (fun s => (none, s)) (fun _ _ s => (none, s))
        { steps := [{ action := "click", selector := some "#go" }] }).2
       = [REvent.launch, REvent.ctxClose]) :=
  c4_amended.2 (fun s => (none, s)) (fun _ _ s => (none, s))
    { steps := [{ action := "click", selector := some "#go" }] } ()

end BrowserBot

namespace BrowserBot

/-! ## Loader validation (claim C7) -/

theorem optionalStr_ok_iff (kvs : List (String × JValue)) (k : String) :
    exceptOk (optionalStr kvs k) = !strFieldBad kvs k := by
  unfold optionalStr strFieldBad
  cases jget kvs k with
  | none => rfl
  | some v => cases v <;> rfl

theorem optionsField_ok_iff (kvs : List (String × JValue)) :
    exceptOk (optionsField kvs) = !optionsBad kvs := by
  unfold optionsField optionsBad
  cases jget kvs "options" with
  | none => rfl
  | some v => cases v <;> rfl

theorem settingsField_ok_iff (kvs : List (String × JValue)) :
    exceptOk (settingsField kvs) = !settingsBad kvs := by
  unfold settingsField settingsBad
  cases jget kvs "settings" with
  | none => rfl
  | some v => cases v <;> rfl

theorem strFieldBad_of_error (kvs : List (String × JValue)) (k : String)
    (e : String) (h : optionalStr kvs k = Except.error e) :
    strFieldBad kvs k = true := by
  have h2 := optionalStr_ok_iff kvs k
  rw [h] at h2
  revert h2
  cases strFieldBad kvs k <;> simp [exceptOk]

theorem strFieldBad_of_ok (kvs : List (String × JValue)) (k : String)
    (v : Option String) (h : optionalStr kvs k = Except.ok v) :
    strFieldBad kvs k = false := by
  have h2 := optionalStr_ok_iff kvs k
  rw [h] at h2
  revert h2
  cases strFieldBad kvs k <;> simp [exceptOk]

theorem optionsBad_of_error (kvs : List (String × JValue)) (e : String)
    (h : optionsField kvs = Except.error e) : optionsBad kvs = true := by
  have h2 := optionsField_ok_iff kvs
  rw [h] at h2
  revert h2
  cases optionsBad kvs <;> simp [exceptOk]

theorem optionsBad_of_ok (kvs : List (String × JValue))
    (o : Option (List (String × JValue))) (h : optionsField kvs = Except.ok o) :
    optionsBad kvs = false := by
  have h2 := optionsField_ok_iff kvs
  rw [h] at h2
  revert h2
  cases optionsBad kvs <;> simp [exceptOk]

theorem settingsBad_of_error (kvs : List (String × JValue)) (e : String)
    (h : settingsField kvs = Except.error e) : settingsBad kvs = true := by
  have h2 := settingsField_ok_iff kvs
  rw [h] at h2
  revert h2
  cases settingsBad kvs <;> simp [exceptOk]

theorem settingsBad_of_ok (kvs : List (String × JValue))
    (st : List (String × JValue)) (h : settingsField kvs = Except.ok st) :
    settingsBad kvs = false := by
  have h2 := settingsField_ok_iff kvs
  rw [h] at h2
  revert h2
  cases settingsBad kvs <;> simp [exceptOk]

theorem fromDict_ok_iff (kvs : List (String × JValue)) :
    exceptOk (fromDict kvs)
      = !(nameBad kvs || optionsBad kvs || strFieldBad kvs "selector"
          || strFieldBad kvs "text" || strFieldBad kvs "url"
          || strFieldBad kvs "path") := by
  cases hn : jlookup kvs "name" with
  | none =>
      have hnb : nameBad kvs = true := by simp [nameBad, hn]
      simp [fromDict, hn, hnb, exceptOk]
  | some v =>
      cases v
      case str s =>
        by_cases hs : s ∈ supportedActions
        · have hnb : nameBad kvs = false := by simp [nameBad, hn, hs]
          cases ho : optionsField kvs with
          | error e =>
              simp [fromDict, hn, hs, ho, hnb, optionsBad_of_error kvs e ho, exceptOk]
          | ok o =>
              have hob := optionsBad_of_ok kvs o ho
              cases h1 : optionalStr kvs "selector" with
              | error e =>
                  simp [fromDict, hn, hs, ho, h1, hnb, hob,
                        strFieldBad_of_error kvs "selector" e h1, exceptOk]
              | ok v1 =>
                  have hb1 := strFieldBad_of_ok kvs "selector" v1 h1
                  cases h2 : optionalStr kvs "text" with
                  | error e =>
                      simp [fromDict, hn, hs, ho, h1, h2, hnb, hob, hb1,
                            strFieldBad_of_error kvs "text" e h2, exceptOk]
                  | ok v2 =>
                      have hb2 := strFieldBad_of_ok kvs "text" v2 h2
                      cases h3 : optionalStr kvs "url" with
                      | error e =>
                          simp [fromDict, hn, hs, ho, h1, h2, h3, hnb, hob, hb1, hb2,
                                strFieldBad_of_error kvs "url" e h3, exceptOk]
                      | ok v3 =>
                          have hb3 := strFieldBad_of_ok kvs "url" v3 h3
                          cases h4 : optionalStr kvs "path" with
                          | error e =>
                              simp [fromDict, hn, hs, ho, h1, h2, h3, h4, hnb, hob,
                                    hb1, hb2, hb3,
                                    strFieldBad_of_error kvs "path" e h4, exceptOk]
                          | ok v4 =>
                              have hb4 := strFieldBad_of_ok kvs "path" v4 h4
                              simp [fromDict, hn, hs, ho, h1, h2, h3, h4, hnb, hob,
                                    hb1, hb2, hb3, hb4, exceptOk]
        · have hnb : nameBad kvs = true := by simp [nameBad, hn, hs]
          simp [fromDict, hn, hs, hnb, exceptOk]
      all_goals
        have hnb : nameBad kvs = true := by simp [nameBad, hn]
        simp [fromDict, hn, hnb, exceptOk]

theorem parseActions_ok_iff : ∀ (xs : List JValue) (i : Nat),
    exceptOk (parseActions i xs) = !(xs.any actionEntryBadAmended) := by
  intro xs
  induction xs with
  | nil => intro i; rfl
  | cons v rest ih =>
      intro i
      cases v
      case obj kvs =>
        cases hf : fromDict kvs with
        | error e =>
            have h2 := fromDict_ok_iff kvs
            rw [hf] at h2
            have hbad : actionEntryBadAmended (JValue.obj kvs) = true := by
              revert h2
              simp only [actionEntryBadAmended, exceptOk]
              cases nameBad kvs || optionsBad kvs || strFieldBad kvs "selector"
                || strFieldBad kvs "text" || strFieldBad kvs "url"
                || strFieldBad kvs "path" <;> simp
            simp [parseActions, hf, hbad, exceptOk]
        | ok a =>
            have h2 := fromDict_ok_iff kvs
            rw [hf] at h2
            have hgood : actionEntryBadAmended (JValue.obj kvs) = false := by
              revert h2
              simp only [actionEntryBadAmended, exceptOk]
              cases nameBad kvs || optionsBad kvs || strFieldBad kvs "selector"
                || strFieldBad kvs "text" || strFieldBad kvs "url"
                || strFieldBad kvs "path" <;> simp
            cases hp : parseActions (i + 1) rest with
            | error e =>
                have h3 := ih (i + 1)
                rw [hp] at h3
                simp [parseActions, hf, hp, hgood, exceptOk, ← h3]
            | ok tail =>
                have h3 := ih (i + 1)
                rw [hp] at h3
                simp [parseActions, hf, hp, hgood, exceptOk, ← h3]
      all_goals
        simp [parseActions, actionEntryBadAmended, exceptOk]

theorem loadConfig_ok_iff (raw : JValue) :
    exceptOk (loadConfig raw) = !amendedLoadFails raw := by
  cases raw
  case obj kvs =>
    cases hb : optionalStr kvs "base_url" with
    | error e =>
        simp [loadConfig, hb, amendedLoadFails,
              strFieldBad_of_error kvs "base_url" e hb, exceptOk]
    | ok b =>
        have hbb := strFieldBad_of_ok kvs "base_url" b hb
        cases hst : settingsField kvs with
        | error e =>
            simp [loadConfig, hb, hst, amendedLoadFails, hbb,
                  settingsBad_of_error kvs e hst, exceptOk]
        | ok st =>
            have hsb := settingsBad_of_ok kvs st hst
            cases ha : jget kvs "actions" with
            | none =>
                have hkb : actionsKeyBad kvs = true := by simp [actionsKeyBad, ha]
                simp [loadConfig, hb, hst, ha, amendedLoadFails, hbb, hsb, hkb, exceptOk]
            | some av =>
                cases av
                case arr xs =>
                  have hkb : actionsKeyBad kvs = false := by simp [actionsKeyBad, ha]
                  cases hp : parseActions 0 xs with
                  | error e =>
                      have h3 := parseActions_ok_iff xs 0
                      rw [hp] at h3
                      simp [loadConfig, hb, hst, ha, hp, amendedLoadFails, hbb, hsb,
                            hkb, exceptOk, ← h3]
                  | ok actions =>
                      have h3 := parseActions_ok_iff xs 0
                      rw [hp] at h3
                      simp [loadConfig, hb, hst, ha, hp, amendedLoadFails, hbb, hsb,
                            hkb, exceptOk, ← h3]
                all_goals
                  have hkb : actionsKeyBad kvs = true := by simp [actionsKeyBad, ha]
                  simp [loadConfig, hb, hst, ha, amendedLoadFails, hbb, hsb, hkb, exceptOk]
  all_goals simp [loadConfig, amendedLoadFails, exceptOk]

/-- Claim C7 counterexample: a document whose single action carries a
string-valued `options` fails to load, yet none of the claim's listed
failure causes holds — the claimed equivalence is false on this input. -/
theorem c7_counterexample :
    exceptOk (loadConfig c7Document) = false ∧
    specLoadFails c7Document = false ∧
    ¬ ((exceptOk (loadConfig c7Document) = false) ↔ (specLoadFails c7Document = true)) := by
  refine ⟨rfl, rfl, ?_⟩
  decide

/-- Claim C7 amended: loading fails exactly when the root is not a mapping,
`actions` is absent or not a sequence, `settings` is present but not a
mapping, a declared string-typed optional field holds a non-string, an
action entry is not a mapping, an action's `name` is absent or outside the
five recognized values, or an action's `options` is present but not a
mapping; and a load failure exits with status 2 before any run event. -/
theorem c7_amended :
    (∀ (raw : JValue),
       exceptOk (loadConfig raw) = false ↔ amendedLoadFails raw = true) ∧
    (∀ {σ : Type} (raw : JValue) (ctx page : Except String Unit)
       (ops : PageOps σ) (s0 : σ) (stop : Bool) (e : String),
       loadConfig raw = Except.error e →
       runFromConfig (loadConfig raw) ctx page ops s0 stop = (Except.ok 2, [])) := by
  constructor
  · intro raw
    rw [loadConfig_ok_iff]
    cases amendedLoadFails raw <;> simp
  · intro σ raw ctx page ops s0 stop e h
    rw [h]
    rfl

/-- Witness for the amended claim C7: the options-bearing document exits
with status 2 and an empty session trace. -/
theorem c7_witness :
    runFromConfig (loadConfig c7Document) (Except.ok ()) (Except.ok ()) okOps () true
      = (Except.ok 2, []) :=
  c7_amended.2 c7Document (Except.ok ()) (Except.ok ()) okOps () true
    "options must be a mapping when provided" rfl

end BrowserBot

namespace BrowserBot

/-! ## Comment stripping (claim C8) -/

theorem hasPair_cons_false_iff (a b c : Char) (l : List Char) :
    hasPair a b (c :: l) = false ↔
      ¬(c = a ∧ l.head? = some b) ∧ hasPair a b l = false := by
  by_cases h : c = a ∧ l.head? = some b
  · simp [hasPair, h]
  · simp [hasPair, h]

theorem lc_pending (r : List Char) (h : r.head? ≠ some '/') :
    lcAux LCState.pending r = '/' :: lcAux LCState.normal r := by
  cases r with
  | nil => rfl
  | cons c r2 =>
      have hc : ¬ c = '/' := by
        intro e
        exact h (by simp [e])
      simp [lcAux, hc]

theorem lc_append (r : List Char) : ∀ (s : List Char),
    hasPair '/' '/' s = false →
    (s.getLast? = some '/' → r.head? ≠ some '/') →
    lcAux LCState.normal (s ++ r) = s ++ lcAux LCState.normal r := by
  intro s
  induction s with
  | nil => intro _ _; rfl
  | cons c s ih =>
      intro h hb
      have hps := (hasPair_cons_false_iff '/' '/' c s).mp h
      have hb2 : s.getLast? = some '/' → r.head? ≠ some '/' := by
        intro hl
        apply hb
        cases s with
        | nil => simp at hl
        | cons d s2 => rw [List.getLast?_cons_cons]; exact hl
      by_cases hc : c = '/'
      · subst hc
        have hhead : (s ++ r).head? ≠ some '/' := by
          cases s with
          | nil => simpa using hb (by simp)
          | cons d s2 =>
              have hd : ¬ d = '/' := by
                intro e
                exact hps.1 ⟨rfl, by simp [e]⟩
              simp [hd]
        calc lcAux LCState.normal (('/' :: s) ++ r)
            = lcAux LCState.pending (s ++ r) := by simp [lcAux]
          _ = '/' :: lcAux LCState.normal (s ++ r) := lc_pending _ hhead
          _ = '/' :: (s ++ lcAux LCState.normal r) := by rw [ih hps.2 hb2]
          _ = ('/' :: s) ++ lcAux LCState.normal r := rfl
      · calc lcAux LCState.normal ((c :: s) ++ r)
            = c :: lcAux LCState.normal (s ++ r) := by simp [lcAux, hc]
          _ = c :: (s ++ lcAux LCState.normal r) := by rw [ih hps.2 hb2]
          _ = (c :: s) ++ lcAux LCState.normal r := rfl

theorem lc_comment_skip : ∀ (s : List Char), s.contains '\n' = false →
    ∀ (r : List Char),
    lcAux LCState.comment (s ++ '\n' :: r) = '\n' :: lcAux LCState.normal r := by
  intro s
  induction s with
  | nil => intro _ r; rfl
  | cons c s ih =>
      intro h r
      simp only [List.contains_cons, Bool.or_eq_false_iff] at h
      have hc : ¬ c = '\n' := by
        intro e
        rw [e] at h
        simp at h
      simp [lcAux, hc, ih h.2 r]

theorem bc_pending (r : List Char) (h : r.head? ≠ some '*') :
    bcAux BCState.pending r = '/' :: bcAux BCState.normal r := by
  cases r with
  | nil => rfl
  | cons c r2 =>
      have hc : ¬ c = '*' := by
        intro e
        exact h (by simp [e])
      by_cases hcs : c = '/'
      · subst hcs; rfl
      · simp [bcAux, hc, hcs]

theorem bc_append (r : List Char) : ∀ (s : List Char),
    hasPair '/' '*' s = false →
    (s.getLast? = some '/' → r.head? ≠ some '*') →
    bcAux BCState.normal (s ++ r) = s ++ bcAux BCState.normal r := by
  intro s
  induction s with
  | nil => intro _ _; rfl
  | cons c s ih =>
      intro h hb
      have hps := (hasPair_cons_false_iff '/' '*' c s).mp h
      have hb2 : s.getLast? = some '/' → r.head? ≠ some '*' := by
        intro hl
        apply hb
        cases s with
        | nil => simp at hl
        | cons d s2 => rw [List.getLast?_cons_cons]; exact hl
      by_cases hc : c = '/'
      · subst hc
        have hhead : (s ++ r).head? ≠ some '*' := by
          cases s with
          | nil => simpa using hb (by simp)
          | cons d s2 =>
              have hd : ¬ d = '*' := by
                intro e
                exact hps.1 ⟨rfl, by simp [e]⟩
              simp [hd]
        calc bcAux BCState.normal (('/' :: s) ++ r)
            = bcAux BCState.pending (s ++ r) := by simp [bcAux]
          _ = '/' :: bcAux BCState.normal (s ++ r) := bc_pending _ hhead
          _ = '/' :: (s ++ bcAux BCState.normal r) := by rw [ih hps.2 hb2]
          _ = ('/' :: s) ++ bcAux BCState.normal r := rfl
      · calc bcAux BCState.normal ((c :: s) ++ r)
            = c :: bcAux BCState.normal (s ++ r) := by simp [bcAux, hc]
          _ = c :: (s ++ bcAux BCState.normal r) := by rw [ih hps.2 hb2]
          _ = (c :: s) ++ bcAux BCState.normal r := rfl

theorem bc_consume : ∀ (content : List Char) (rest : List Char),
    hasPair '*' '/' content = false →
    (∀ (buf : List Char),
       bcAux (BCState.inBlock buf) (content ++ '*' :: '/' :: rest)
         = bcAux BCState.normal rest) ∧
    (content.head? ≠ some '/' →
     ∀ (buf : List Char),
       bcAux (BCState.inStar buf) (content ++ '*' :: '/' :: rest)
         = bcAux BCState.normal rest) := by
  intro content
  induction content with
  | nil =>
      intro rest _
      exact ⟨fun buf => rfl, fun _ buf => rfl⟩
  | cons c ct ih =>
      intro rest h
      have hps := (hasPair_cons_false_iff '*' '/' c ct).mp h
      have ih2 := ih rest hps.2
      have hcthead : c = '*' → ct.head? ≠ some '/' := by
        intro e hh
        exact hps.1 ⟨e, hh⟩
      constructor
      · intro buf
        by_cases hc : c = '*'
        · subst hc
          have hstep : bcAux (BCState.inBlock buf) ('*' :: (ct ++ '*' :: '/' :: rest))
              = bcAux (BCState.inStar buf) (ct ++ '*' :: '/' :: rest) := by
            simp [bcAux]
          rw [List.cons_append, hstep, ih2.2 (hcthead rfl) buf]
        · have hstep : bcAux (BCState.inBlock buf) (c :: (ct ++ '*' :: '/' :: rest))
              = bcAux (BCState.inBlock (c :: buf)) (ct ++ '*' :: '/' :: rest) := by
            simp [bcAux, hc]
          rw [List.cons_append, hstep, ih2.1 (c :: buf)]
      · intro hhead buf
        have hcs : ¬ c = '/' := by
          intro e
          exact hhead (by simp [e])
        by_cases hc : c = '*'
        · subst hc
          have hstep : bcAux (BCState.inStar buf) ('*' :: (ct ++ '*' :: '/' :: rest))
              = bcAux (BCState.inStar ('*' :: buf)) (ct ++ '*' :: '/' :: rest) := by
            simp [bcAux]
          rw [List.cons_append, hstep, ih2.2 (hcthead rfl) ('*' :: buf)]
        · have hstep : bcAux (BCState.inStar buf) (c :: (ct ++ '*' :: '/' :: rest))
              = bcAux (BCState.inBlock (c :: '*' :: buf)) (ct ++ '*' :: '/' :: rest) := by
            simp [bcAux, hc, hcs]
          rw [List.cons_append, hstep, ih2.1 (c :: '*' :: buf)]

theorem seqOKb_head (c : Chunk) (cs : List Chunk) (h : seqOKb (c :: cs) = true) :
    chunkOKb c = true ∧ seqOKb cs = true := by
  cases cs with
  | nil => exact ⟨h, rfl⟩
  | cons d rest =>
      simp only [seqOKb, Bool.and_eq_true] at h
      exact ⟨h.1.1, h.2⟩

theorem seqOKb_adj (c d : Chunk) (rest : List Chunk)
    (h : seqOKb (c :: d :: rest) = true) : adjOKb c d = true := by
  simp only [seqOKb, Bool.and_eq_true] at h
  exact h.1.2

theorem renderL_head_ok (bs : String) (cs : List Chunk)
    (h : seqOKb (Chunk.block bs :: cs) = true) :
    (renderL cs).head? ≠ some '/' := by
  cases cs with
  | nil => simp [renderL]
  | cons d rest =>
      have hadj := seqOKb_adj _ _ _ h
      cases d with
      | text t =>
          have hok : chunkOKb (Chunk.text t) = true :=
            (seqOKb_head _ _ (seqOKb_head _ _ h).2).1
          simp only [chunkOKb, Bool.and_eq_true, Bool.not_eq_true'] at hok
          obtain ⟨⟨⟨⟨h1, h2⟩, h3⟩, h4⟩, h5⟩ := hok
          cases ht : t.data with
          | nil => rw [ht] at h3; simp at h3
          | cons c0 l =>
              rw [ht] at h4
              simp only [List.head?] at h4
              have hc0 : ¬ c0 = '/' := by
                intro e
                rw [e] at h4
                simp at h4
              simp [renderL, renderChunk, ht, hc0]
      | line s => simp [adjOKb] at hadj
      | block s => simp [adjOKb] at hadj

theorem midL_head_ok (bs : String) (cs : List Chunk)
    (h : seqOKb (Chunk.block bs :: cs) = true) :
    (midL cs).head? ≠ some '/' := by
  cases cs with
  | nil => simp [midL]
  | cons d rest =>
      have hadj := seqOKb_adj _ _ _ h
      cases d with
      | text t =>
          have hok : chunkOKb (Chunk.text t) = true :=
            (seqOKb_head _ _ (seqOKb_head _ _ h).2).1
          simp only [chunkOKb, Bool.and_eq_true, Bool.not_eq_true'] at hok
          obtain ⟨⟨⟨⟨h1, h2⟩, h3⟩, h4⟩, h5⟩ := hok
          cases ht : t.data with
          | nil => rw [ht] at h3; simp at h3
          | cons c0 l =>
              rw [ht] at h4
              simp only [List.head?] at h4
              have hc0 : ¬ c0 = '/' := by
                intro e
                rw [e] at h4
                simp at h4
              simp [midL, midChunk, ht, hc0]
      | line s => simp [adjOKb] at hadj
      | block s => simp [adjOKb] at hadj

end BrowserBot

namespace BrowserBot

theorem lc_render : ∀ (cs : List Chunk), seqOKb cs = true →
    lcAux LCState.normal (renderL cs) = midL cs := by
  intro cs
  induction cs with
  | nil => intro _; rfl
  | cons c cs ih =>
      intro h
      obtain ⟨hc, hrest⟩ := seqOKb_head c cs h
      cases c with
      | text t =>
          simp only [chunkOKb, Bool.and_eq_true, Bool.not_eq_true'] at hc
          obtain ⟨⟨⟨⟨h1, h2⟩, h3⟩, h4⟩, h5⟩ := hc
          show lcAux LCState.normal (t.data ++ renderL cs) = t.data ++ midL cs
          rw [lc_append (renderL cs) t.data h1
                (fun hl => absurd hl (of_decide_eq_false h5)), ih hrest]
      | line s =>
          simp only [chunkOKb, Bool.not_eq_true'] at hc
          show lcAux LCState.normal
              (('/' :: '/' :: (s.data ++ ['\n'])) ++ renderL cs) = '\n' :: midL cs
          have he : ('/' :: '/' :: (s.data ++ ['\n'])) ++ renderL cs
              = '/' :: '/' :: (s.data ++ '\n' :: renderL cs) := by simp
          rw [he]
          have hstep : lcAux LCState.normal ('/' :: '/' :: (s.data ++ '\n' :: renderL cs))
              = lcAux LCState.comment (s.data ++ '\n' :: renderL cs) := rfl
          rw [hstep, lc_comment_skip s.data hc (renderL cs), ih hrest]
      | block bs =>
          simp only [chunkOKb, Bool.and_eq_true, Bool.not_eq_true'] at hc
          obtain ⟨h1, h2⟩ := hc
          have hhead := renderL_head_ok bs cs h
          show lcAux LCState.normal
              (('/' :: '*' :: (bs.data ++ ['*', '/'])) ++ renderL cs)
            = ('/' :: '*' :: (bs.data ++ ['*', '/'])) ++ midL cs
          have he : ('/' :: '*' :: (bs.data ++ ['*', '/'])) ++ renderL cs
              = '/' :: '*' :: (bs.data ++ '*' :: '/' :: renderL cs) := by simp
          have he2 : ('/' :: '*' :: (bs.data ++ ['*', '/'])) ++ midL cs
              = '/' :: '*' :: (bs.data ++ '*' :: '/' :: midL cs) := by simp
          rw [he, he2]
          calc lcAux LCState.normal ('/' :: '*' :: (bs.data ++ '*' :: '/' :: renderL cs))
              = lcAux LCState.pending ('*' :: (bs.data ++ '*' :: '/' :: renderL cs)) := rfl
            _ = '/' :: '*' :: lcAux LCState.normal (bs.data ++ '*' :: '/' :: renderL cs) := rfl
            _ = '/' :: '*' :: (bs.data ++ lcAux LCState.normal ('*' :: '/' :: renderL cs)) := by
                  rw [lc_append ('*' :: '/' :: renderL cs) bs.data h2
                      (fun _ => by simp)]
            _ = '/' :: '*' :: (bs.data ++ '*' :: lcAux LCState.pending (renderL cs)) := rfl
            _ = '/' :: '*' :: (bs.data ++ '*' :: '/' :: lcAux LCState.normal (renderL cs)) := by
                  rw [lc_pending _ hhead]
            _ = '/' :: '*' :: (bs.data ++ '*' :: '/' :: midL cs) := by rw [ih hrest]

theorem bc_mid : ∀ (cs : List Chunk), seqOKb cs = true →
    bcAux BCState.normal (midL cs) = plainL cs := by
  intro cs
  induction cs with
  | nil => intro _; rfl
  | cons c cs ih =>
      intro h
      obtain ⟨hc, hrest⟩ := seqOKb_head c cs h
      cases c with
      | text t =>
          simp only [chunkOKb, Bool.and_eq_true, Bool.not_eq_true'] at hc
          obtain ⟨⟨⟨⟨h1, h2⟩, h3⟩, h4⟩, h5⟩ := hc
          show bcAux BCState.normal (t.data ++ midL cs) = t.data ++ plainL cs
          rw [bc_append (midL cs) t.data h2
                (fun hl => absurd hl (of_decide_eq_false h5)), ih hrest]
      | line s =>
          show bcAux BCState.normal ('\n' :: midL cs) = '\n' :: plainL cs
          have hstep : bcAux BCState.normal ('\n' :: midL cs)
              = '\n' :: bcAux BCState.normal (midL cs) := rfl
          rw [hstep, ih hrest]
      | block bs =>
          simp only [chunkOKb, Bool.and_eq_true, Bool.not_eq_true'] at hc
          obtain ⟨h1, h2⟩ := hc
          show bcAux BCState.normal
              (('/' :: '*' :: (bs.data ++ ['*', '/'])) ++ midL cs) = plainL cs
          have he : ('/' :: '*' :: (bs.data ++ ['*', '/'])) ++ midL cs
              = '/' :: '*' :: (bs.data ++ '*' :: '/' :: midL cs) := by simp
          rw [he]
          have hstep : bcAux BCState.normal ('/' :: '*' :: (bs.data ++ '*' :: '/' :: midL cs))
              = bcAux (BCState.inBlock []) (bs.data ++ '*' :: '/' :: midL cs) := rfl
          rw [hstep, (bc_consume bs.data (midL cs) h1).1 [], ih hrest]

/-- Claim C8 counterexample: the bridge loader `load_config` parses the raw
file text — it performs no comment stripping — so the comment-bearing
document fails to load even though its comment-free equivalent is
accepted.  Comment stripping is therefore not a preprocessing step of that
loader, refuting the claim for the bridge form its sources cite. -/
theorem c8_counterexample :
    loadConfigText jsonLoadsC8 c8Document
      = Except.error "Expecting value: line 1 column 1 (char 0)" ∧
    loadConfigText jsonLoadsC8 (stripJsonc c8Document)
      = Except.ok { actions := [], base_url := none, settings := [] } ∧
    loadConfigText jsonLoadsC8 c8Document
      ≠ loadConfigText jsonLoadsC8 (stripJsonc c8Document) := by
  have h1 : loadConfigText jsonLoadsC8 c8Document
      = Except.error "Expecting value: line 1 column 1 (char 0)" := rfl
  have h2 : loadConfigText jsonLoadsC8 (stripJsonc c8Document)
      = Except.ok { actions := [], base_url := none, settings := [] } := rfl
  refine ⟨h1, h2, ?_⟩
  rw [h1, h2]
  intro hcontra
  exact Except.noConfusion hcontra

/-- Claim C8 amended: only the standalone loader strips comments — for
every well-formed decomposition of a document into plain text, line
comments and block comments, its two textual passes yield exactly the
comment-free equivalent (line comments replaced by their newline, block
comments removed), so `load_json_or_jsonc` parses a comment-bearing
document exactly as any parser would parse its comment-free equivalent;
the stripping is purely textual (a quoted string containing `//` is cut
like any other text, as the concrete conjunct shows).  The bridge loader
`load_config` performs no stripping: it hands the raw text to the parser,
so the comment-bearing document that the standalone load stage accepts
fails there. -/
theorem c8_amended (cs : List Chunk) (h : seqOKb cs = true) :
    stripBC (stripLC (renderL cs)) = plainL cs ∧
    stripJsonc (String.mk (renderL cs)) = String.mk (plainL cs) ∧
    (∀ (parse : String → Except String JValue),
       loadJsonOrJsonc parse (String.mk (renderL cs))
         = parse (String.mk (plainL cs))) ∧
    stripJsonc "\x22https://example.com\x22" = "\x22https:" ∧
    loadJsonOrJsonc jsonLoadsC8 c8Document
      = Except.ok (JValue.obj [("actions", JValue.arr [])]) ∧
    loadConfigText jsonLoadsC8 c8Document
      = Except.error "Expecting value: line 1 column 1 (char 0)" := by
  have key : stripBC (stripLC (renderL cs)) = plainL cs := by
    rw [stripLC, stripBC, lc_render cs h, bc_mid cs h]
  have key2 : stripJsonc (String.mk (renderL cs)) = String.mk (plainL cs) :=
    congrArg String.mk key
  exact ⟨key, key2, fun parse => congrArg parse key2, rfl, rfl, rfl⟩

/-- Witness for the amended claim C8: a concrete five-chunk document with a
line comment and a multi-line block comment strips to its comment-free
equivalent. -/
theorem c8_witness :
    seqOKb c8DocChunks = true ∧
    stripJsonc (String.mk (renderL c8DocChunks)) = String.mk (plainL c8DocChunks) :=
  ⟨by decide, (c8_amended c8DocChunks (by decide)).2.1⟩

end BrowserBot
